import Mathlib

/-!
Shallow embedding of the chunked-upload pipeline of `internal/file/file.go`
(package `file` of go-micloud), together with theorems checking the
natural-language specification against it.

Modelling conventions:
* File sizes and offsets are `Nat` (Go `int64`; `os.Stat` sizes are
  non-negative, and every subtraction performed by the code is on values
  where the minuend dominates, so `Nat` subtraction agrees with `int64`).
* External effects (hashing, file reads, HTTP round trips) are oracles
  stored in an `Env`; each network side effect performed is recorded in an
  event trace, so temporal claims ("X is never attempted", "no transfer
  occurs") become statements about the trace returned next to the result.
* A Go runtime panic (out-of-range slice index) is a distinct `Outcome`.
-/

namespace MiCloud

/-- ChunkSize is the fixed block size, 4194304 bytes (4 MiB), from
`const ChunkSize = 4194304` in file.go. -/
def ChunkSize : Nat := 4194304

/-- BlockInfo models the Go struct `BlockInfo` (the `Blob struct{}` field is
an empty placeholder and is omitted): per-block SHA-1, MD5 and byte size. -/
structure BlockInfo where
  sha1 : String
  md5  : String
  size : Nat
deriving Repr, DecidableEq

/-- numBlocks is `int(math.Ceil(float64(size) / float64(ChunkSize)))` from
`getFileBlocks`.  For every size below 4 GiB the quantity `size / 2^22` is a
dyadic rational with at most 32 significant bits, hence exactly representable
in float64, so the float division and `math.Ceil` compute the exact ceiling
`(size + ChunkSize - 1) / ChunkSize`. -/
def numBlocks (fileSize : Nat) : Nat := (fileSize + ChunkSize - 1) / ChunkSize

/-- chunkGo models the for-loop of `getFileBlocks` (file.go lines 189-208).
`left` is the number of remaining iterations (the loop runs `i = 1 .. num`,
here `k = i - 1`), and `bLen` is the current length of the reusable read
buffer `b`, which starts at `ChunkSize` and is shrunk to the remaining tail
`fileSize - offset` when that is smaller.  A failed read executes `continue`,
silently skipping the block (the skipped block's shrunken buffer length still
carries over, exactly as in the Go code). -/
def chunkGo (fileSize : Nat) (readOk : Nat → Bool) (sha1B md5B : Nat → String) :
    Nat → Nat → Nat → List BlockInfo
  | 0, _, _ => []
  | left + 1, k, bLen =>
    let offset := k * ChunkSize
    let bLen2 := if bLen > fileSize - offset then fileSize - offset else bLen
    if readOk k then
      { sha1 := sha1B k, md5 := md5B k, size := bLen2 } ::
        chunkGo fileSize readOk sha1B md5B left (k + 1) bLen2
    else
      chunkGo fileSize readOk sha1B md5B left (k + 1) bLen2

/-- getFileBlocks models `getFileBlocks` (file.go lines 183-210): `none` when
`os.OpenFile` fails (the only path on which the Go function returns an
error); otherwise the block list produced by the loop.  `readOk k` tells
whether the `file.Read` for block `k` succeeds; `sha1B`/`md5B` are the
digests of block `k`'s bytes. -/
def getFileBlocks (openOk : Bool) (fileSize : Nat) (readOk : Nat → Bool)
    (sha1B md5B : Nat → String) : Option (List BlockInfo) :=
  if openOk then
    some (chunkGo fileSize readOk sha1B md5B (numBlocks fileSize) 0 ChunkSize)
  else none

/-- BlockMeta models one entry of the negotiation response's
`data.storage.kss.block_metas` array as read by `uploadBlock` via gjson:
`is_existed` (an integer; the code tests `== 1`), `commit_meta`, and
`block_meta`. -/
structure BlockMeta where
  isExisted  : Int
  commitMeta : String
  blockMeta  : String
deriving Repr, DecidableEq

/-- BlockResp models the JSON body answered by the storage node to an
`upload_block_chunk` POST: the `stat` marker and the `commit_meta` token. -/
structure BlockResp where
  stat       : String
  commitMeta : String
deriving Repr, DecidableEq

/-- NegotiationResp models the fields of the create-file-block response that
`UploadFile` reads via gjson: the top-level `result` and `description`, and
under `data.storage`: `exists`, `uploadId`, and the `kss` object with
`node_urls`, `file_meta`, `block_metas`, `secure_key`, `contentCacheKey`. -/
structure NegotiationResp where
  result          : String
  description     : String
  storageExists   : Bool
  uploadId        : String
  nodeUrls        : List String
  fileMeta        : String
  blockMetas      : List BlockMeta
  secureKey       : String
  contentCacheKey : String
deriving Repr, DecidableEq

/-- CommitResp models the fields of the final `createFile` HTTP response the
code reads: `result`, `description`, `data.id`. -/
structure CommitResp where
  result      : String
  description : String
  dataId      : String
deriving Repr, DecidableEq

/-- CommitPayload is the `data` JSON document `createFile` is called with:
either the existing-upload reference (`UploadExistedStorage`: uploadId plus
the `Exists: true` flag, file.go lines 120-126) or the full commit record
(`UploadStorage` with a `Kss`: size, whole-file sha1, node urls, secure key,
content cache key, file meta, ordered commit tokens, uploadId, `Exists:
false`, file.go lines 160-176).  Both carry the file name. -/
inductive CommitPayload where
  | existed (name : String) (uploadId : String) (exist : Bool)
  | full (name : String) (size : Nat) (sha1 : String) (nodeUrls : List String)
      (secureKey contentCacheKey fileMeta : String)
      (commitMetas : List String) (uploadId : String) (exist : Bool)
deriving Repr, DecidableEq

/-- Event records one externally visible step of the pipeline:
the whole-file SHA-1 computation (file.go line 68), the negotiation POST to
`CreateFile` (line 106), the raw-bytes POST of block `k` to the node
(lines 235-240), and the final commit POST of `createFile` (lines 264-269)
together with its payload. -/
inductive Event where
  | hashWhole
  | negotiate
  | blockTransfer (k : Nat)
  | commit (p : CommitPayload)
deriving Repr, DecidableEq

/-- UploadError enumerates the error returns of the pipeline, one per
`return "", err` / `return nil, err` site the model reaches. -/
inductive UploadError where
  | statError
  | sizeTooBig
  | getFileBlocksFailed
  | postFormError
  | createFileBlockFailed (description : String)
  | noAvailableNode
  | openFileError
  | blockReadError
  | transportError
  | blockNotCompleted
  | commitTransportError
  | commitRejected (description : String)
deriving Repr, DecidableEq

/-- Outcome of `UploadFile`: a file id, an error, or a Go runtime panic. -/
inductive Outcome where
  | ok (id : String)
  | err (e : UploadError)
  | panicked
deriving Repr, DecidableEq

/-- Env packages the oracles for all external interactions of one
`UploadFile` run: `os.Stat` success, file size, whole-file digests, the
`os.OpenFile`/`file.Read` outcomes of the chunking pass, per-block digests,
the negotiation response (`none` = transport failure of `postForm`), the
`os.Open` of the upload pass, per-block read outcomes in `uploadBlock`, the
node's response per transferred block (`none` = transport failure), and the
final commit response (`none` = transport/read failure). -/
structure Env where
  statOk       : Bool
  fileSize     : Nat
  fileSha1     : String
  fileMd5      : String
  openChunkOk  : Bool
  chunkReadOk  : Nat → Bool
  blockSha1    : Nat → String
  blockMd5     : Nat → String
  negotiation  : Option NegotiationResp
  openUploadOk : Bool
  blockReadOk  : Nat → Bool
  transfer     : Nat → Option BlockResp
  commitResp   : Option CommitResp

/-- buildBlockInfos models file.go lines 70-88: files strictly larger than
`ChunkSize` go through `getFileBlocks` (whose error is replaced by
`errors.New("get file blocks failed")`), anything else becomes a single
`BlockInfo` whose digests are the whole-file digests and whose size is the
file size. -/
def buildBlockInfos (env : Env) : Except UploadError (List BlockInfo) :=
  if ChunkSize < env.fileSize then
    match getFileBlocks env.openChunkOk env.fileSize env.chunkReadOk
        env.blockSha1 env.blockMd5 with
    | some bs => .ok bs
    | none => .error .getFileBlocksFailed
  else
    .ok [{ sha1 := env.fileSha1, md5 := env.fileMd5, size := env.fileSize }]

/-- uploadBlock models `uploadBlock` (file.go lines 213-252) for block number
`num`: an entry with `is_existed == 1` returns its `commit_meta` with no
network traffic; otherwise the block's byte range is read from the file (a
read error aborts before any request), the bytes are POSTed to the node, and
only a response whose `stat` is exactly "BLOCK_COMPLETED" is accepted, its
`commit_meta` being returned. -/
def uploadBlock (env : Env) (num : Nat) (bm : BlockMeta) :
    Except UploadError String × List Event :=
  if bm.isExisted == 1 then
    (.ok bm.commitMeta, [])
  else
    if env.blockReadOk num then
      match env.transfer num with
      | none => (.error .transportError, [.blockTransfer num])
      | some resp =>
        if resp.stat == "BLOCK_COMPLETED" then
          (.ok resp.commitMeta, [.blockTransfer num])
        else
          (.error .blockNotCompleted, [.blockTransfer num])
    else
      (.error .blockReadError, [])

/-- uploadLoop models the `for k, block := range blockMetas` loop of
`UploadFile` (file.go lines 146-157): blocks are processed in order starting
at index `k`; the first error is returned at once (no later entry is
processed), otherwise the commit tokens are collected in order. -/
def uploadLoop (env : Env) : Nat → List BlockMeta →
    Except UploadError (List String) × List Event
  | _, [] => (.ok [], [])
  | k, bm :: rest =>
    match uploadBlock env k bm with
    | (.error e, evs) => (.error e, evs)
    | (.ok cm, evs) =>
      match uploadLoop env (k + 1) rest with
      | (.error e, evs2) => (.error e, evs ++ evs2)
      | (.ok cms, evs2) => (.ok (cm :: cms), evs ++ evs2)

/-- createFile models `createFile` (file.go lines 255-284): the payload is
marshalled (which cannot fail on these values) and POSTed; a transport or
body-read failure is an error; a response whose `result` is "ok" yields
`data.id`, any other response yields an error carrying `description`. -/
def createFile (env : Env) (payload : CommitPayload) :
    Except UploadError String × List Event :=
  match env.commitResp with
  | none => (.error .commitTransportError, [.commit payload])
  | some cr =>
    if cr.result == "ok" then
      (.ok cr.dataId, [.commit payload])
    else
      (.error (.commitRejected cr.description), [.commit payload])

/-- liftCreate turns a `createFile` result into an `Outcome`, prepending the
events that happened before the commit. -/
def liftCreate (pre : List Event) :
    Except UploadError String × List Event → Outcome × List Event
  | (.ok id, evs) => (.ok id, pre ++ evs)
  | (.error e, evs) => (.err e, pre ++ evs)

/-- UploadFile models `UploadFile` (file.go lines 54-180).  Steps in source
order: `os.Stat`; the size guard `size == 0 || size >= 4*1024*1024*1024`
returning `SizeTooBigError`; the whole-file SHA-1 (the first digest work,
recorded as `Event.hashWhole`); the manifest (`buildBlockInfos`); the
negotiation POST; the `result != "ok"` guard; the `data.storage.exists`
branch committing the existing-upload reference; otherwise node selection —
note the Go code evaluates `nodeUrls[0]` before any emptiness check, so an
empty `node_urls` slice is an index-out-of-range panic, and the
"no available url node" error fires only when the first url is the empty
string — then `os.Open`, the sequential block loop, and the final commit of
the full record. -/
def UploadFile (env : Env) (fileName : String) : Outcome × List Event :=
  if env.statOk then
    if env.fileSize == 0 || 4 * 1024 * 1024 * 1024 ≤ env.fileSize then
      (.err .sizeTooBig, [])
    else
      match buildBlockInfos env with
      | .error e => (.err e, [.hashWhole])
      | .ok _blockInfos =>
        match env.negotiation with
        | none => (.err .postFormError, [.hashWhole, .negotiate])
        | some r =>
          if r.result == "ok" then
            if r.storageExists then
              liftCreate [.hashWhole, .negotiate]
                (createFile env (.existed fileName r.uploadId true))
            else
              match r.nodeUrls with
              | [] => (.panicked, [.hashWhole, .negotiate])
              | apiNode :: _ =>
                if apiNode == "" then
                  (.err .noAvailableNode, [.hashWhole, .negotiate])
                else if env.openUploadOk then
                  match uploadLoop env 0 r.blockMetas with
                  | (.error e, evs) =>
                    (.err e, [.hashWhole, .negotiate] ++ evs)
                  | (.ok commitMetas, evs) =>
                    liftCreate ([.hashWhole, .negotiate] ++ evs)
                      (createFile env
                        (.full fileName env.fileSize env.fileSha1 r.nodeUrls
                          r.secureKey r.contentCacheKey r.fileMeta
                          commitMetas r.uploadId false))
                else
                  (.err .openFileError, [.hashWhole, .negotiate])
          else
            (.err (.createFileBlockFailed r.description),
              [.hashWhole, .negotiate])
  else
    (.err .statError, [])

/-! ### Concrete demonstration environments -/

/-- demoEnvBase is a benign small-file environment (100 bytes, every local
file operation succeeds, no network oracle configured). -/
def demoEnvBase : Env where
  statOk := true
  fileSize := 100
  fileSha1 := "f-sha1"
  fileMd5 := "f-md5"
  openChunkOk := true
  chunkReadOk := fun _ => true
  blockSha1 := fun _ => "b-sha1"
  blockMd5 := fun _ => "b-md5"
  negotiation := none
  openUploadOk := true
  blockReadOk := fun _ => true
  transfer := fun _ => none
  commitResp := none

/-- demoEnvChunked is a file of two full chunks plus 5 bytes. -/
def demoEnvChunked : Env :=
  { demoEnvBase with fileSize := 2 * ChunkSize + 5 }

/-- demoEnvBig is a file of exactly 4 GiB, which the size guard rejects. -/
def demoEnvBig : Env :=
  { demoEnvBase with fileSize := 4 * 1024 * 1024 * 1024 }

/-- demoCommitOk is a successful final-commit response. -/
def demoCommitOk : CommitResp :=
  { result := "ok", description := "", dataId := "new-file-id" }

/-- demoNegExists is a negotiation response reporting the whole file as
already existing server-side. -/
def demoNegExists : NegotiationResp where
  result := "ok"
  description := ""
  storageExists := true
  uploadId := "up-77"
  nodeUrls := ["http://node1"]
  fileMeta := "fm"
  blockMetas := []
  secureKey := "sk"
  contentCacheKey := "cck"

/-- demoNegReject is a negotiation response with a non-"ok" result. -/
def demoNegReject : NegotiationResp :=
  { demoNegExists with result := "err", description := "quota exceeded" }

/-- demoNegEmptyNodes is a "blocks needed" negotiation response whose
`node_urls` array is empty. -/
def demoNegEmptyNodes : NegotiationResp :=
  { demoNegExists with storageExists := false, nodeUrls := [] }

/-- demoNegAllExisted is a "blocks needed" negotiation response in which
every block entry is flagged as already existing. -/
def demoNegAllExisted : NegotiationResp :=
  { demoNegExists with
      storageExists := false,
      blockMetas := [
        { isExisted := 1, commitMeta := "cm-0", blockMeta := "bm-0" },
        { isExisted := 1, commitMeta := "cm-1", blockMeta := "bm-1" },
        { isExisted := 1, commitMeta := "cm-2", blockMeta := "bm-2" }] }

/-- demoNegUpload is a "blocks needed" negotiation response with one
pre-existing block followed by two blocks that must be transferred. -/
def demoNegUpload : NegotiationResp :=
  { demoNegExists with
      storageExists := false,
      blockMetas := [
        { isExisted := 1, commitMeta := "cm-0", blockMeta := "bm-0" },
        { isExisted := 0, commitMeta := "", blockMeta := "bm-1" },
        { isExisted := 0, commitMeta := "", blockMeta := "bm-2" }] }

/-- demoEnvExists pairs demoNegExists with a successful commit response. -/
def demoEnvExists : Env :=
  { demoEnvBase with negotiation := some demoNegExists, commitResp := some demoCommitOk }

/-- demoEnvReject carries the rejecting negotiation response. -/
def demoEnvReject : Env :=
  { demoEnvBase with negotiation := some demoNegReject }

/-- demoEnvEmptyNodes carries the empty-`node_urls` negotiation response. -/
def demoEnvEmptyNodes : Env :=
  { demoEnvBase with negotiation := some demoNegEmptyNodes }

/-- demoEnvAllExisted carries the all-blocks-existing negotiation response
and a transfer oracle that would reject any request, so a successful run
proves that no transfer was even attempted. -/
def demoEnvAllExisted : Env :=
  { demoEnvBase with
      negotiation := some demoNegAllExisted, commitResp := some demoCommitOk }

/-- demoEnvBadBlock carries demoNegUpload and a node that answers every
transfer with a non-completed status. -/
def demoEnvBadBlock : Env :=
  { demoEnvBase with
      negotiation := some demoNegUpload,
      transfer := fun _ => some { stat := "BLOCK_FAILED", commitMeta := "junk" },
      commitResp := some demoCommitOk }

/-! ### Lemmas about the chunking pass -/

/-- mkChunkBlock is the `BlockInfo` that a successful read of block `j`
produces: digests of block `j` and the size `min ChunkSize (fileSize - j *
ChunkSize)` that the shrinking read buffer has at that iteration. -/
def mkChunkBlock (fileSize : Nat) (sha1B md5B : Nat → String) (j : Nat) : BlockInfo :=
  { sha1 := sha1B j, md5 := md5B j,
    size := min ChunkSize (fileSize - j * ChunkSize) }

lemma chunkGo_allOk (fs : Nat) (ro : Nat → Bool) (s1 m1 : Nat → String)
    (hro : ∀ k, ro k = true) :
    ∀ left k, (k + left) * ChunkSize < fs + ChunkSize →
      chunkGo fs ro s1 m1 left k ChunkSize =
        (List.range' k left).map (mkChunkBlock fs s1 m1) := by
  intro left
  induction left with
  | zero =>
    intro k _
    simp [chunkGo]
  | succ l ih =>
    intro k h
    have hb : (if ChunkSize > fs - k * ChunkSize then fs - k * ChunkSize else ChunkSize)
        = min ChunkSize (fs - k * ChunkSize) := by
      split <;> omega
    rw [List.range'_succ, List.map_cons]
    simp only [chunkGo, hro k, if_true, hb]
    congr 1
    cases l with
    | zero =>
      simp [chunkGo]
    | succ l2 =>
      have hmin : min ChunkSize (fs - k * ChunkSize) = ChunkSize := by
        simp only [ChunkSize] at h ⊢
        omega
      rw [hmin]
      exact ih (k + 1) (by simp only [ChunkSize] at h ⊢; omega)

lemma getFileBlocks_allOk (fs : Nat) (ro : Nat → Bool) (s1 m1 : Nat → String)
    (hro : ∀ k, ro k = true) :
    getFileBlocks true fs ro s1 m1 =
      some ((List.range' 0 (numBlocks fs)).map (mkChunkBlock fs s1 m1)) := by
  have h : (0 + numBlocks fs) * ChunkSize < fs + ChunkSize := by
    simp only [numBlocks, ChunkSize]
    omega
  simp [getFileBlocks, chunkGo_allOk fs ro s1 m1 hro (numBlocks fs) 0 h]

lemma sum_min_chunks (fs : Nat) : ∀ n,
    ((List.range' 0 n).map (fun j => min ChunkSize (fs - j * ChunkSize))).sum
      = min (n * ChunkSize) fs := by
  intro n
  induction n with
  | zero => simp
  | succ m ih =>
    rw [List.range'_concat, List.map_append, List.sum_append, ih]
    simp only [List.map_cons, List.map_nil, List.sum_cons, List.sum_nil]
    simp only [ChunkSize] at *
    omega

/-! ### Lemmas about the upload pipeline -/

lemma liftCreate_snd (pre : List Event) (x : Except UploadError String × List Event) :
    (liftCreate pre x).snd = pre ++ x.snd := by
  rcases x with ⟨fst, snd⟩
  cases fst <;> rfl

lemma uploadFile_size_cond_false (env : Env)
    (h0 : 0 < env.fileSize) (h4 : env.fileSize < 4 * 1024 * 1024 * 1024) :
    (env.fileSize == 0 || decide (4 * 1024 * 1024 * 1024 ≤ env.fileSize)) = false := by
  simp only [Bool.or_eq_false_iff, beq_eq_false_iff_ne, ne_eq,
    decide_eq_false_iff_not, not_le]
  omega

lemma exists_cons_of_head_eq {α : Type} {l : List α} {a : α}
    (h : l.head? = some a) : ∃ t, l = a :: t := by
  cases l with
  | nil => cases h
  | cons x t =>
    simp only [List.head?_cons, Option.some.injEq] at h
    exact ⟨t, by rw [h]⟩

lemma UploadFile_head_hash (env : Env) (fn : String)
    (hst : env.statOk = true)
    (h0 : 0 < env.fileSize) (h4 : env.fileSize < 4 * 1024 * 1024 * 1024) :
    (UploadFile env fn).snd.head? = some Event.hashWhole := by
  unfold UploadFile
  rw [hst, uploadFile_size_cond_false env h0 h4]
  simp only [if_true, Bool.false_eq_true, if_false]
  repeat' first
    | rfl
    | (rw [liftCreate_snd]; rfl)
    | split

lemma uploadBlock_events (env : Env) (k : Nat) (bm : BlockMeta) :
    (uploadBlock env k bm).snd = [] ∨
    (uploadBlock env k bm).snd = [Event.blockTransfer k] := by
  unfold uploadBlock
  repeat' first | (left; rfl) | (right; rfl) | split

lemma uploadLoop_all_existed (env : Env) :
    ∀ (bms : List BlockMeta) (k : Nat), (∀ bm ∈ bms, bm.isExisted = 1) →
      uploadLoop env k bms = (.ok (bms.map BlockMeta.commitMeta), []) := by
  intro bms
  induction bms with
  | nil => intro k _; rfl
  | cons b rest ih =>
    intro k h
    have hb : (b.isExisted == 1) = true := by
      simp [h b (List.mem_cons_self b rest)]
    simp only [uploadLoop, uploadBlock, hb, if_true,
      ih (k + 1) (fun bm hm => h bm (List.mem_cons_of_mem b hm)),
      List.map_cons, List.nil_append]

lemma uploadLoop_abort (env : Env) :
    ∀ (pre : List BlockMeta) (k : Nat) (bad : BlockMeta) (post : List BlockMeta)
      (e : UploadError),
      (∀ j bm, pre.get? j = some bm →
        ∃ cm evs, uploadBlock env (k + j) bm = (.ok cm, evs)) →
      (uploadBlock env (k + pre.length) bad).fst = .error e →
      (uploadLoop env k (pre ++ bad :: post)).fst = .error e ∧
      ∀ ev ∈ (uploadLoop env k (pre ++ bad :: post)).snd,
        ∃ i, ev = Event.blockTransfer i ∧ i ≤ k + pre.length := by
  intro pre
  induction pre with
  | nil =>
    intro k bad post e _ hbad
    simp only [List.length_nil, Nat.add_zero] at hbad ⊢
    obtain ⟨evs, hub⟩ : ∃ evs, uploadBlock env k bad = (.error e, evs) := by
      rcases h2 : uploadBlock env k bad with ⟨res, evs⟩
      rw [h2] at hbad
      simp only at hbad
      rw [hbad]
      exact ⟨evs, rfl⟩
    have hev := uploadBlock_events env k bad
    rw [hub] at hev
    simp only at hev
    constructor
    · simp only [List.nil_append, uploadLoop, hub]
    · simp only [List.nil_append, uploadLoop, hub]
      intro ev hevmem
      rcases hev with hev | hev <;> rw [hev] at hevmem
      · cases hevmem
      · simp only [List.mem_singleton] at hevmem
        exact ⟨k, hevmem, by omega⟩
  | cons b pre2 ih =>
    intro k bad post e hpre hbad
    obtain ⟨cm, evs0, hub0⟩ := hpre 0 b rfl
    rw [Nat.add_zero] at hub0
    have hpre2 : ∀ j bm, pre2.get? j = some bm →
        ∃ cm2 evs2, uploadBlock env (k + 1 + j) bm = (.ok cm2, evs2) := by
      intro j bm hj
      have h2 := hpre (j + 1) bm (by simpa using hj)
      rwa [show k + (j + 1) = k + 1 + j by omega] at h2
    have hbad2 : (uploadBlock env (k + 1 + pre2.length) bad).fst = .error e := by
      rwa [show k + (b :: pre2).length = k + 1 + pre2.length by
        simp only [List.length_cons]; omega] at hbad
    have hih := ih (k + 1) bad post e hpre2 hbad2
    obtain ⟨evs2, hl⟩ :
        ∃ evs2, uploadLoop env (k + 1) (pre2 ++ bad :: post) = (.error e, evs2) := by
      rcases h2 : uploadLoop env (k + 1) (pre2 ++ bad :: post) with ⟨res2, evs2⟩
      rw [h2] at hih
      simp only at hih
      rw [hih.1]
      exact ⟨evs2, rfl⟩
    rw [hl] at hih
    simp only at hih
    obtain ⟨-, hevs⟩ := hih
    have hev0 := uploadBlock_events env k b
    rw [hub0] at hev0
    simp only at hev0
    constructor
    · simp only [List.cons_append, uploadLoop, List.append_eq, hub0, hl]
    · simp only [List.cons_append, uploadLoop, List.append_eq, hub0, hl]
      intro ev hevmem
      simp only [List.mem_append] at hevmem
      rcases hevmem with hm | hm
      · rcases hev0 with hev0 | hev0 <;> rw [hev0] at hm
        · cases hm
        · simp only [List.mem_singleton] at hm
          exact ⟨k, hm, by omega⟩
      · obtain ⟨i, hi, hle⟩ := hevs ev hm
        refine ⟨i, hi, ?_⟩
        simp only [List.length_cons]
        omega

lemma UploadFile_upload_branch (env : Env) (fn : String) (r : NegotiationResp)
    (u : String) (us : List String)
    (hst : env.statOk = true) (h0 : 0 < env.fileSize)
    (h4 : env.fileSize < 4 * 1024 * 1024 * 1024)
    (hbi : ∃ bs, buildBlockInfos env = Except.ok bs)
    (hneg : env.negotiation = some r) (hres : r.result = "ok")
    (hex : r.storageExists = false) (hnu : r.nodeUrls = u :: us)
    (hu : u ≠ "") (hopen : env.openUploadOk = true) :
    UploadFile env fn =
      (match uploadLoop env 0 r.blockMetas with
       | (.error e, evs) => (.err e, [.hashWhole, .negotiate] ++ evs)
       | (.ok commitMetas, evs) =>
         liftCreate ([.hashWhole, .negotiate] ++ evs)
           (createFile env (.full fn env.fileSize env.fileSha1 (u :: us)
             r.secureKey r.contentCacheKey r.fileMeta commitMetas r.uploadId
             false))) := by
  obtain ⟨bs, hb⟩ := hbi
  have hres2 : (r.result == "ok") = true := by simp [hres]
  have hu2 : (u == "") = false := by
    simp only [beq_eq_false_iff_ne, ne_eq]
    exact hu
  unfold UploadFile
  rw [hst, uploadFile_size_cond_false env h0 h4]
  simp only [if_true, Bool.false_eq_true, if_false, hb, hneg, hres2, hex, hnu,
    hu2, hopen]

/-! ### Claim theorems -/

/-- Claim C1: for every file size `s` with `0 < s < 4 GiB` and chunk size
`C = 4194304`, the block manifest built by `UploadFile` (here
`buildBlockInfos`, lines 70-88 of file.go) has exactly `ceil(s/C)` entries
(in `Nat`, `(s + C - 1) / C`), their `Size` fields sum to `s`, every block
but the last has `Size = C`; for `s ≤ C` the manifest is the single block
built directly from the whole-file digests (no chunking pass), and for
`s = C + 1` there are exactly 2 blocks.  The chunking pass is assumed to
read every block successfully (`hro`); see C2 for what happens otherwise. -/
theorem uploadFile_manifest_chunking (env : Env)
    (h0 : 0 < env.fileSize) (h4 : env.fileSize < 4 * 1024 * 1024 * 1024)
    (hopen : env.openChunkOk = true)
    (hro : ∀ k, env.chunkReadOk k = true) :
    ∃ bs, buildBlockInfos env = .ok bs ∧
      bs.length = (env.fileSize + ChunkSize - 1) / ChunkSize ∧
      (bs.map BlockInfo.size).sum = env.fileSize ∧
      (∀ b ∈ bs.dropLast, b.size = ChunkSize) ∧
      (env.fileSize ≤ ChunkSize →
        bs = [{ sha1 := env.fileSha1, md5 := env.fileMd5, size := env.fileSize }]) ∧
      (env.fileSize = ChunkSize + 1 → bs.length = 2) := by
  by_cases hc : ChunkSize < env.fileSize
  case neg =>
    refine ⟨[{ sha1 := env.fileSha1, md5 := env.fileMd5, size := env.fileSize }],
      ?_, ?_, ?_, ?_, ?_, ?_⟩
    · unfold buildBlockInfos
      rw [if_neg hc]
    · simp only [List.length_singleton, ChunkSize] at *
      omega
    · simp
    · simp
    · intro _; rfl
    · intro hEq; exfalso; simp only [ChunkSize] at *; omega
  case pos =>
    have hb : buildBlockInfos env = .ok ((List.range' 0 (numBlocks env.fileSize)).map
        (mkChunkBlock env.fileSize env.blockSha1 env.blockMd5)) := by
      unfold buildBlockInfos
      rw [if_pos hc, hopen,
        getFileBlocks_allOk env.fileSize env.chunkReadOk env.blockSha1 env.blockMd5 hro]
    refine ⟨_, hb, ?_, ?_, ?_, ?_, ?_⟩
    · simp [List.length_range', numBlocks]
    · have hmm : List.map BlockInfo.size ((List.range' 0 (numBlocks env.fileSize)).map
          (mkChunkBlock env.fileSize env.blockSha1 env.blockMd5)) =
          (List.range' 0 (numBlocks env.fileSize)).map
            (fun j => min ChunkSize (env.fileSize - j * ChunkSize)) := by
        simp [List.map_map, mkChunkBlock, Function.comp]
      rw [hmm, sum_min_chunks]
      simp only [numBlocks, ChunkSize] at *
      omega
    · intro b hb2
      obtain ⟨n2, hn2⟩ : ∃ n2, numBlocks env.fileSize = n2 + 1 := by
        refine ⟨numBlocks env.fileSize - 1, ?_⟩
        simp only [numBlocks, ChunkSize] at *
        omega
      rw [hn2, List.range'_concat] at hb2
      simp only [List.map_append, List.map_cons, List.map_nil,
        List.dropLast_concat, List.mem_map] at hb2
      obtain ⟨j, hj, rfl⟩ := hb2
      rw [List.mem_range'_1] at hj
      simp only [mkChunkBlock]
      simp only [ChunkSize, numBlocks] at *
      omega
    · intro hle; exfalso; omega
    · intro hEq
      simp only [List.length_map, List.length_range', numBlocks, hEq, ChunkSize]

/-- Witness for C1 at a concrete file of two full chunks plus 5 bytes. -/
theorem uploadFile_manifest_chunking_witness :
    ∃ bs, buildBlockInfos demoEnvChunked = .ok bs ∧
      bs.length = (demoEnvChunked.fileSize + ChunkSize - 1) / ChunkSize ∧
      (bs.map BlockInfo.size).sum = demoEnvChunked.fileSize ∧
      (∀ b ∈ bs.dropLast, b.size = ChunkSize) ∧
      (demoEnvChunked.fileSize ≤ ChunkSize →
        bs = [{ sha1 := demoEnvChunked.fileSha1, md5 := demoEnvChunked.fileMd5,
                size := demoEnvChunked.fileSize }]) ∧
      (demoEnvChunked.fileSize = ChunkSize + 1 → bs.length = 2) :=
  uploadFile_manifest_chunking demoEnvChunked (by decide) (by decide) rfl (fun _ => rfl)

/-- Claim C2: the claim states that a failed read of an individual block
makes `getFileBlocks` fail rather than return a manifest missing that
block.  The code does the opposite: the loop body's `continue` on a read
error (file.go line 199) silently drops the block.  Concretely, for a file
of `ChunkSize + 1` bytes (2 blocks) whose block-0 read fails,
`getFileBlocks` succeeds (`some`, i.e. `err == nil`) and returns a 1-block
manifest containing only block 1 (of size 1), though the true block count
is 2. -/
theorem getFileBlocks_skips_failed_read :
    getFileBlocks true (ChunkSize + 1) (fun k => k != 0) (fun _ => "s") (fun _ => "m")
      = some [{ sha1 := "s", md5 := "m", size := 1 }] ∧
    numBlocks (ChunkSize + 1) = 2 := by
  exact ⟨rfl, rfl⟩

/-- Claim C3: `UploadFile` fails with `SizeTooBigError` exactly when the
file size is 0 or at least `4*1024*1024*1024` bytes (file.go line 63), and
in that case the event trace is empty, so in particular no digest
computation has happened; for every size strictly between the bounds the
guard passes and the run's first event is the whole-file SHA-1 computation
(hashing proceeds). -/
theorem uploadFile_size_guard (env : Env) (fn : String) (hst : env.statOk = true) :
    ((env.fileSize = 0 ∨ 4 * 1024 * 1024 * 1024 ≤ env.fileSize) →
      UploadFile env fn = (.err .sizeTooBig, [])) ∧
    (0 < env.fileSize → env.fileSize < 4 * 1024 * 1024 * 1024 →
      ∃ evs, (UploadFile env fn).snd = Event.hashWhole :: evs) := by
  constructor
  · intro h
    have hcond : (env.fileSize == 0 ||
        decide (4 * 1024 * 1024 * 1024 ≤ env.fileSize)) = true := by
      rcases h with h | h <;> simp [h]
    unfold UploadFile
    rw [hst, hcond]
    rfl
  · intro h0 h4
    exact exists_cons_of_head_eq (UploadFile_head_hash env fn hst h0 h4)

/-- Witness for C3: a 4 GiB file is rejected with an empty trace, and the
100-byte file's run starts with the hash event. -/
theorem uploadFile_size_guard_witness :
    UploadFile demoEnvBig "f" = (.err .sizeTooBig, []) ∧
    ∃ evs, (UploadFile demoEnvBase "f").snd = Event.hashWhole :: evs :=
  ⟨(uploadFile_size_guard demoEnvBig "f" rfl).1 (Or.inr (by decide)),
   (uploadFile_size_guard demoEnvBase "f" rfl).2 (by decide) (by decide)⟩

/-- Claim C4: when the negotiation response says the whole file already
exists (`data.storage.exists`, file.go lines 117-128), `UploadFile`
performs no block transfer, calls the final commit exactly once with the
existing-upload reference payload (the uploadId and the `Exists: true`
flag), and returns the commit's file identifier. -/
theorem uploadFile_whole_file_exists (env : Env) (fn : String)
    (r : NegotiationResp) (cr : CommitResp)
    (hst : env.statOk = true) (h0 : 0 < env.fileSize)
    (h4 : env.fileSize < 4 * 1024 * 1024 * 1024)
    (hbi : ∃ bs, buildBlockInfos env = Except.ok bs)
    (hneg : env.negotiation = some r) (hres : r.result = "ok")
    (hex : r.storageExists = true)
    (hcr : env.commitResp = some cr) (hcrok : cr.result = "ok") :
    UploadFile env fn =
      (.ok cr.dataId,
        [.hashWhole, .negotiate, .commit (.existed fn r.uploadId true)]) ∧
    (∀ k, Event.blockTransfer k ∉ (UploadFile env fn).snd) ∧
    (UploadFile env fn).snd.countP
      (fun e => match e with | .commit _ => true | _ => false) = 1 := by
  obtain ⟨bs, hb⟩ := hbi
  have hres2 : (r.result == "ok") = true := by simp [hres]
  have hcrok2 : (cr.result == "ok") = true := by simp [hcrok]
  have hmain : UploadFile env fn =
      (.ok cr.dataId,
        [.hashWhole, .negotiate, .commit (.existed fn r.uploadId true)]) := by
    unfold UploadFile
    rw [hst, uploadFile_size_cond_false env h0 h4]
    simp only [if_true, Bool.false_eq_true, if_false, hb, hneg, hres2, hex,
      createFile, hcr, hcrok2, liftCreate]
    rfl
  refine ⟨hmain, ?_, ?_⟩
  · intro k
    rw [hmain]
    simp
  · rw [hmain]
    rfl

/-- Witness for C4 at the concrete file-exists environment. -/
theorem uploadFile_whole_file_exists_witness :
    UploadFile demoEnvExists "f" =
      (.ok demoCommitOk.dataId,
        [.hashWhole, .negotiate,
          .commit (.existed "f" demoNegExists.uploadId true)]) ∧
    (∀ k, Event.blockTransfer k ∉ (UploadFile demoEnvExists "f").snd) ∧
    (UploadFile demoEnvExists "f").snd.countP
      (fun e => match e with | .commit _ => true | _ => false) = 1 :=
  uploadFile_whole_file_exists demoEnvExists "f" demoNegExists demoCommitOk
    rfl (by decide) (by decide) ⟨_, rfl⟩ rfl rfl rfl rfl rfl

/-- Claim C8: when the negotiation response's top-level result marker is not
"ok" (file.go lines 113-116), `UploadFile` fails with an error carrying the
server-supplied description, and the trace shows that no block transfer and
no commit were attempted. -/
theorem uploadFile_negotiation_rejected (env : Env) (fn : String)
    (r : NegotiationResp)
    (hst : env.statOk = true) (h0 : 0 < env.fileSize)
    (h4 : env.fileSize < 4 * 1024 * 1024 * 1024)
    (hbi : ∃ bs, buildBlockInfos env = Except.ok bs)
    (hneg : env.negotiation = some r) (hres : r.result ≠ "ok") :
    UploadFile env fn =
      (.err (.createFileBlockFailed r.description), [.hashWhole, .negotiate]) := by
  obtain ⟨bs, hb⟩ := hbi
  have hres2 : (r.result == "ok") = false := by
    simp only [beq_eq_false_iff_ne, ne_eq]
    exact hres
  unfold UploadFile
  rw [hst, uploadFile_size_cond_false env h0 h4]
  simp only [if_true, Bool.false_eq_true, if_false, hb, hneg, hres2]

/-- Witness for C8 at the concrete rejecting negotiation. -/
theorem uploadFile_negotiation_rejected_witness :
    UploadFile demoEnvReject "f" =
      (.err (.createFileBlockFailed demoNegReject.description),
        [.hashWhole, .negotiate]) :=
  uploadFile_negotiation_rejected demoEnvReject "f" demoNegReject
    rfl (by decide) (by decide) ⟨_, rfl⟩ rfl (by decide)

/-- Claim C9: for every final-commit call that obtains a response,
`createFile` (file.go lines 255-284) returns the response's `data.id`
exactly when the result marker is "ok", and otherwise an error carrying the
response's description string. -/
theorem createFile_result_marker (env : Env) (cr : CommitResp) (p : CommitPayload)
    (hcr : env.commitResp = some cr) :
    createFile env p =
      (if cr.result = "ok" then Except.ok cr.dataId
       else Except.error (.commitRejected cr.description), [.commit p]) := by
  unfold createFile
  rw [hcr]
  by_cases h : cr.result = "ok" <;> simp [h]

/-- Witness for C9 at the concrete successful commit response. -/
theorem createFile_result_marker_witness :
    createFile demoEnvExists (.existed "f" "up-77" true) =
      (if demoCommitOk.result = "ok" then Except.ok demoCommitOk.dataId
       else Except.error (.commitRejected demoCommitOk.description),
       [.commit (.existed "f" "up-77" true)]) :=
  createFile_result_marker demoEnvExists demoCommitOk _ rfl

/-- Claim C10: for every file with `0 < size ≤ ChunkSize`, the manifest is a
single `BlockInfo` whose `Sha1` is exactly the whole-file SHA-1 (`fileSha1`,
the same value `UploadFile` sends as the file-level digest, reused not
recomputed — file.go line 83) and whose `Size` is the file size. -/
theorem single_block_reuses_whole_file_digest (env : Env)
    (_h0 : 0 < env.fileSize) (hle : env.fileSize ≤ ChunkSize) :
    buildBlockInfos env =
      .ok [{ sha1 := env.fileSha1, md5 := env.fileMd5, size := env.fileSize }] := by
  unfold buildBlockInfos
  rw [if_neg (Nat.not_lt.mpr hle)]

/-- Witness for C10 at the concrete 100-byte environment. -/
theorem single_block_reuses_whole_file_digest_witness :
    buildBlockInfos demoEnvBase =
      .ok [{ sha1 := demoEnvBase.fileSha1, md5 := demoEnvBase.fileMd5,
             size := demoEnvBase.fileSize }] :=
  single_block_reuses_whole_file_digest demoEnvBase (by decide) (by decide)

/-- Claim C5: for a block that needs upload (and whose bytes were read),
`uploadBlock` succeeds exactly when the node's response carries the status
marker "BLOCK_COMPLETED" (file.go lines 240-250) — transport failure or any
other status is an error — and when some block fails after a prefix of
successful blocks, `UploadFile` (file.go lines 148-153) returns that error
at once: the trace contains no commit event and no transfer of any block
past the failing index. -/
theorem uploadBlock_status_and_abort :
    (∀ (env : Env) (k : Nat) (bm : BlockMeta) (cm : String),
      bm.isExisted ≠ 1 → env.blockReadOk k = true →
      ((uploadBlock env k bm).fst = .ok cm ↔
        ∃ resp, env.transfer k = some resp ∧ resp.stat = "BLOCK_COMPLETED" ∧
          cm = resp.commitMeta)) ∧
    (∀ (env : Env) (fn : String) (r : NegotiationResp) (u : String)
      (us : List String) (pre : List BlockMeta) (bad : BlockMeta)
      (post : List BlockMeta) (e : UploadError),
      env.statOk = true → 0 < env.fileSize →
      env.fileSize < 4 * 1024 * 1024 * 1024 →
      (∃ bs, buildBlockInfos env = Except.ok bs) →
      env.negotiation = some r → r.result = "ok" → r.storageExists = false →
      r.nodeUrls = u :: us → u ≠ "" → env.openUploadOk = true →
      r.blockMetas = pre ++ bad :: post →
      (∀ j bm, pre.get? j = some bm →
        ∃ cm evs, uploadBlock env j bm = (.ok cm, evs)) →
      (uploadBlock env pre.length bad).fst = .error e →
      (UploadFile env fn).fst = .err e ∧
      (∀ p, Event.commit p ∉ (UploadFile env fn).snd) ∧
      (∀ i, Event.blockTransfer i ∈ (UploadFile env fn).snd →
        i ≤ pre.length)) := by
  constructor
  · intro env k bm cm hexi hread
    have hexi2 : (bm.isExisted == 1) = false := by
      simp only [beq_eq_false_iff_ne, ne_eq]
      exact hexi
    unfold uploadBlock
    rw [hexi2, hread]
    simp only [Bool.false_eq_true, if_false, if_true]
    rcases ht : env.transfer k with _ | resp
    · simp
    · by_cases hs : resp.stat = "BLOCK_COMPLETED"
      · have hs2 : (resp.stat == "BLOCK_COMPLETED") = true := by simp [hs]
        simp only [hs2, if_true]
        constructor
        · intro h
          exact ⟨resp, rfl, hs, by simpa [eq_comm] using h⟩
        · rintro ⟨resp2, hr2, -, hcm⟩
          obtain rfl : resp = resp2 := by simpa using hr2
          simp [hcm]
      · have hs2 : (resp.stat == "BLOCK_COMPLETED") = false := by
          simp only [beq_eq_false_iff_ne, ne_eq]
          exact hs
        simp only [hs2, Bool.false_eq_true, if_false]
        constructor
        · intro h
          cases h
        · rintro ⟨resp2, hr2, hst2, -⟩
          obtain rfl : resp = resp2 := by simpa using hr2
          exact absurd hst2 hs
  · intro env fn r u us pre bad post e hst h0 h4 hbi hneg hres hex hnu hu
      hopen hbm hpre hbad
    have hpath := UploadFile_upload_branch env fn r u us hst h0 h4 hbi hneg
      hres hex hnu hu hopen
    have habort := uploadLoop_abort env pre 0 bad post e
      (by simpa using hpre) (by simpa using hbad)
    rw [hbm] at hpath
    obtain ⟨evs, hl⟩ :
        ∃ evs, uploadLoop env 0 (pre ++ bad :: post) = (.error e, evs) := by
      rcases h2 : uploadLoop env 0 (pre ++ bad :: post) with ⟨res2, evs2⟩
      rw [h2] at habort
      simp only at habort
      rw [habort.1]
      exact ⟨evs2, rfl⟩
    rw [hl] at hpath habort
    simp only [Nat.zero_add] at habort
    obtain ⟨-, hevs⟩ := habort
    refine ⟨by rw [hpath], ?_, ?_⟩
    · intro p hp
      rw [hpath] at hp
      simp only [List.cons_append, List.nil_append, List.mem_cons] at hp
      rcases hp with hp | hp | hp
      · cases hp
      · cases hp
      · obtain ⟨i, hi, -⟩ := hevs _ hp
        cases hi
    · intro i hi
      rw [hpath] at hi
      simp only [List.cons_append, List.nil_append, List.mem_cons] at hi
      rcases hi with hi | hi | hi
      · cases hi
      · cases hi
      · obtain ⟨i2, hi2, hle⟩ := hevs _ hi
        obtain rfl : i = i2 := by
          cases hi2
          rfl
        exact hle

/-- Witness for C5: in demoEnvBadBlock, block 0 is pre-existing, block 1
must be transferred and the node answers "BLOCK_FAILED", so the whole
upload fails with blockNotCompleted, block 2 is never transferred, and no
commit happens. -/
theorem uploadBlock_status_and_abort_witness :
    ((uploadBlock demoEnvBadBlock 1
        { isExisted := 0, commitMeta := "", blockMeta := "bm-1" }).fst
        = .ok "junk" ↔
      ∃ resp, demoEnvBadBlock.transfer 1 = some resp ∧
        resp.stat = "BLOCK_COMPLETED" ∧ "junk" = resp.commitMeta) ∧
    ((UploadFile demoEnvBadBlock "f").fst = .err .blockNotCompleted ∧
     (∀ p, Event.commit p ∉ (UploadFile demoEnvBadBlock "f").snd) ∧
     (∀ i, Event.blockTransfer i ∈ (UploadFile demoEnvBadBlock "f").snd →
        i ≤ 1)) :=
  ⟨uploadBlock_status_and_abort.1 demoEnvBadBlock 1
      { isExisted := 0, commitMeta := "", blockMeta := "bm-1" } "junk"
      (by decide) rfl,
   uploadBlock_status_and_abort.2 demoEnvBadBlock "f" demoNegUpload
      "http://node1" []
      [{ isExisted := 1, commitMeta := "cm-0", blockMeta := "bm-0" }]
      { isExisted := 0, commitMeta := "", blockMeta := "bm-1" }
      [{ isExisted := 0, commitMeta := "", blockMeta := "bm-2" }]
      .blockNotCompleted
      rfl (by decide) (by decide) ⟨_, rfl⟩ rfl rfl rfl rfl (by decide) rfl rfl
      (by
        intro j bm hj
        cases j with
        | zero =>
          simp only [List.get?_cons_zero, Option.some.injEq] at hj
          subst hj
          exact ⟨"cm-0", [], rfl⟩
        | succ j2 => simp at hj)
      rfl⟩

/-- Claim C6: the claim says an empty `node_urls` list makes `UploadFile`
fail with the "no available url node" error rather than crash.  The code
disagrees: `nodeUrls[0]` is evaluated (file.go line 137) before the
emptiness guard can fire, so an empty slice raises an index-out-of-range
runtime panic; the guard only catches a first url equal to the empty
string.  This theorem exhibits the panic on a concrete run. -/
theorem uploadFile_empty_node_urls_panics :
    UploadFile demoEnvEmptyNodes "f" = (.panicked, [.hashWhole, .negotiate]) :=
  rfl

/-- Claim C7: a block entry flagged `is_existed` makes `uploadBlock` return
its supplied commit token with no transfer (file.go lines 219-220); when
every entry is so flagged, the upload loop performs zero transfers and
collects exactly one token per entry in order, and `UploadFile`'s whole
trace contains no transfer event — only hash, negotiate, and the final
commit whose payload carries the complete ordered token list. -/
theorem uploadBlock_existed_no_transfer :
    (∀ (env : Env) (k : Nat) (bm : BlockMeta), bm.isExisted = 1 →
      uploadBlock env k bm = (.ok bm.commitMeta, [])) ∧
    (∀ (env : Env) (k : Nat) (bms : List BlockMeta),
      (∀ bm ∈ bms, bm.isExisted = 1) →
      uploadLoop env k bms = (.ok (bms.map BlockMeta.commitMeta), [])) ∧
    (∀ (env : Env) (fn : String) (r : NegotiationResp) (u : String)
      (us : List String),
      env.statOk = true → 0 < env.fileSize →
      env.fileSize < 4 * 1024 * 1024 * 1024 →
      (∃ bs, buildBlockInfos env = Except.ok bs) →
      env.negotiation = some r → r.result = "ok" → r.storageExists = false →
      r.nodeUrls = u :: us → u ≠ "" → env.openUploadOk = true →
      (∀ bm ∈ r.blockMetas, bm.isExisted = 1) →
      UploadFile env fn = liftCreate [.hashWhole, .negotiate]
        (createFile env (.full fn env.fileSize env.fileSha1 (u :: us)
          r.secureKey r.contentCacheKey r.fileMeta
          (r.blockMetas.map BlockMeta.commitMeta) r.uploadId false))) := by
  refine ⟨?_, ?_, ?_⟩
  · intro env k bm hb
    have hb2 : (bm.isExisted == 1) = true := by simp [hb]
    unfold uploadBlock
    rw [hb2]
    rfl
  · intro env k bms h
    exact uploadLoop_all_existed env bms k h
  · intro env fn r u us hst h0 h4 hbi hneg hres hex hnu hu hopen hall
    have hpath := UploadFile_upload_branch env fn r u us hst h0 h4 hbi hneg
      hres hex hnu hu hopen
    rw [uploadLoop_all_existed env r.blockMetas 0 hall] at hpath
    simpa using hpath

/-- Witness for C7 at the all-blocks-existing environment: no transfer
events, and the commit payload carries the three tokens in order. -/
theorem uploadBlock_existed_no_transfer_witness :
    uploadBlock demoEnvAllExisted 0
        { isExisted := 1, commitMeta := "cm-0", blockMeta := "bm-0" }
      = (.ok "cm-0", []) ∧
    uploadLoop demoEnvAllExisted 0 demoNegAllExisted.blockMetas
      = (.ok (demoNegAllExisted.blockMetas.map BlockMeta.commitMeta), []) ∧
    UploadFile demoEnvAllExisted "f" = liftCreate [.hashWhole, .negotiate]
      (createFile demoEnvAllExisted
        (.full "f" demoEnvAllExisted.fileSize demoEnvAllExisted.fileSha1
          ["http://node1"] demoNegAllExisted.secureKey
          demoNegAllExisted.contentCacheKey demoNegAllExisted.fileMeta
          (demoNegAllExisted.blockMetas.map BlockMeta.commitMeta)
          demoNegAllExisted.uploadId false)) :=
  ⟨uploadBlock_existed_no_transfer.1 demoEnvAllExisted 0
      { isExisted := 1, commitMeta := "cm-0", blockMeta := "bm-0" } rfl,
   uploadBlock_existed_no_transfer.2.1 demoEnvAllExisted 0
      demoNegAllExisted.blockMetas (by decide),
   uploadBlock_existed_no_transfer.2.2 demoEnvAllExisted "f"
      demoNegAllExisted "http://node1" []
      rfl (by decide) (by decide) ⟨_, rfl⟩ rfl rfl rfl rfl (by decide) rfl
      (by decide)⟩

end MiCloud
